import Mathlib

/-
Verification development for the audit-intelligence-platform repository.

Shallow embedding of the retrieval core: access control
(src/security/access_control.py), the answer cache
(src/services/cache_service.py), the parent-child store
(src/services/parent_child_retriever.py), the multi-index engine
(src/services/llamaindex_multi_engine.py), the advanced retrieval pipeline
(src/services/advanced_retrieval.py) and the document lifecycle endpoints
(src/main.py).  External collaborators (vector index, LLM, re-ranker,
document loader, the Redis transport and JSON serialisation) are modelled
at their interface boundary, as oracles or explicit parameters.
-/

set_option autoImplicit false

namespace AuditPlatform

/-! ## Generic association-list helpers

Python dicts in the sources are modelled as association lists with
first-match lookup.  `assocSet` replaces in place (Python dict assignment
keeps the original insertion position of an existing key). -/

def assocFind {α : Type} : List (String × α) → String → Option α
  | [], _ => none
  | (k, v) :: es, key => if k = key then some v else assocFind es key

def assocSet {α : Type} : List (String × α) → String → α → List (String × α)
  | [], key, v => [(key, v)]
  | (k, w) :: es, key, v =>
      if k = key then (k, v) :: es else (k, w) :: assocSet es key v

def assocRemove {α : Type} : List (String × α) → String → List (String × α)
  | [], _ => []
  | (k, w) :: es, key => if k = key then es else (k, w) :: assocRemove es key

/-- `listPfx p l` is true when `p` is an initial segment of `l`
(used to model the Redis glob pattern match on literal key patterns). -/
def listPfx : List Char → List Char → Bool
  | [], _ => true
  | _ :: _, [] => false
  | a :: as, b :: bs => a == b && listPfx as bs

theorem listPfx_self_append (p r : List Char) : listPfx p (p ++ r) = true := by
  induction p with
  | nil => rfl
  | cons a as ih => simp [listPfx, ih]

/-! ## Configuration (src/config.py, class Settings defaults) -/

structure AppSettings where
  chunk_size : Nat
  chunk_overlap : Nat
  parent_chunk_size : Nat
  child_chunk_size : Nat
  retrieval_top_k : Nat
  rerank_top_n : Nat
  cache_ttl_seconds : Nat
deriving DecidableEq

def settings : AppSettings :=
  { chunk_size := 500
    chunk_overlap := 50
    parent_chunk_size := 1500
    child_chunk_size := 200
    retrieval_top_k := 20
    rerank_top_n := 5
    cache_ttl_seconds := 3600 }

/-! ## Role-based access control (src/security/access_control.py) -/

structure RoleInfo where
  name : String
  access_groups : List String
deriving DecidableEq

/-- `USER_ROLES` table from access_control.py. -/
def USER_ROLES : List (String × RoleInfo) :=
  [ ("admin", { name := "Admin",
                access_groups := ["GLOBAL_AUDIT", "APAC_AUDIT", "EMEA_AUDIT", "ALL"] }),
    ("apac_auditor", { name := "APAC Auditor",
                       access_groups := ["APAC_AUDIT", "GLOBAL_AUDIT"] }),
    ("emea_auditor", { name := "EMEA Auditor",
                       access_groups := ["EMEA_AUDIT", "GLOBAL_AUDIT"] }),
    ("viewer", { name := "Viewer",
                 access_groups := ["GLOBAL_AUDIT"] }) ]

structure HTTPErr where
  status : Nat
  detail : String
deriving DecidableEq

structure CurrentUser where
  role : String
  name : String
  access_groups : List String
deriving DecidableEq

/-- `get_current_user`: `request.headers.get("X-User-Role", "admin")`, then a
`USER_ROLES` lookup; an unknown role raises HTTP 403.  The request headers are
modelled as an association list. -/
def get_current_user (headers : List (String × String)) : Except HTTPErr CurrentUser :=
  let role := (assocFind headers "X-User-Role").getD "admin"
  match assocFind USER_ROLES role with
  | none => .error { status := 403, detail := "Unknown role: " ++ role }
  | some u => .ok { role := role, name := u.name, access_groups := u.access_groups }

/-- Qdrant metadata filter, as built by `build_access_filter`: either the empty
filter `\x7b\x7d` or a single `must`/`match any` condition on one metadata key. -/
inductive QdrantFilter where
  | empty
  | matchAny (key : String) (values : List String)
deriving DecidableEq

/-- `build_access_filter` from access_control.py. -/
def build_access_filter (user : CurrentUser) : QdrantFilter :=
  if "ALL" ∈ user.access_groups then .empty
  else .matchAny "access_group" user.access_groups

/-- Semantics of a Qdrant metadata filter on one chunk's metadata. -/
def filterAccepts (f : QdrantFilter) (meta : List (String × String)) : Bool :=
  match f with
  | .empty => true
  | .matchAny key values =>
      match assocFind meta key with
      | some v => values.contains v
      | none => false

/-! ## Documents and the main retriever (src/services/document_processor.py)

A LangChain `Document` (also standing for Qdrant payloads and LlamaIndex
nodes' source data) is content plus string metadata. -/

structure Document where
  pageContent : String
  metadata : List (String × String)
deriving DecidableEq

/-- A LangChain retriever over the Qdrant store: the `search_kwargs` that
`as_retriever` was given.  Qdrant applies `filter` inside the similarity
search itself. -/
structure Retriever where
  k : Nat
  filter : Option QdrantFilter
deriving DecidableEq

/-- `DocumentProcessor.get_retriever`: the source passes only
`search_kwargs = \x7b"k": settings.retrieval_top_k\x7d` — no filter. -/
def get_retriever : Retriever :=
  { k := settings.retrieval_top_k, filter := none }

/-- Semantics of invoking the retriever for one question: `ranked` is the
full candidate pool in similarity order for that question (the external
vector index), and the filter — when present — is applied at the search
boundary, before the top-k cut. -/
def retrieverInvoke (r : Retriever) (ranked : List Document) : List Document :=
  match r.filter with
  | none => ranked.take r.k
  | some f => (ranked.filter (fun c => filterAccepts f c.metadata)).take r.k

/-! ## Parent-child store (src/services/parent_child_retriever.py)

`parent_store` is the dict from parent ids to parent documents.
`get_parents_for_children` walks the retrieved children in order, keeping a
set of parent ids already seen; a child is skipped when its `parent_id`
metadata is missing or falsy (Python `if parent_id`, so the empty string is
also skipped) or when the id is not in the store. -/

def get_parents_go (store : List (String × Document)) :
    List Document → List String → List Document
  | [], _ => []
  | c :: cs, seen =>
      match assocFind c.metadata "parent_id" with
      | none => get_parents_go store cs seen
      | some pid =>
          if pid ≠ "" ∧ pid ∉ seen then
            match assocFind store pid with
            | some parent => parent :: get_parents_go store cs (pid :: seen)
            | none => get_parents_go store cs seen
          else get_parents_go store cs seen

/-- `ParentChildRetriever.get_parents_for_children`. -/
def get_parents_for_children (store : List (String × Document))
    (child_docs : List Document) : List Document :=
  get_parents_go store child_docs []

/-- First-occurrence de-duplication with an accumulator of already-seen
keys; used only to state the specification of parent resolution. -/
def dedupSeen : List String → List String → List String
  | [], _ => []
  | x :: xs, seen =>
      if x ∈ seen then dedupSeen xs seen else x :: dedupSeen xs (x :: seen)

def dedupFirstOcc (l : List String) : List String := dedupSeen l []

/-- Modelled from the spec's words for `resolve_parents` (§4.2): the
de-duplicated, order-preserving (order of first occurrence) sequence of
parent ids referenced by the children, each resolved against the store,
with children lacking a parent id or pointing at a missing parent skipped. -/
def resolve_parents_spec (store : List (String × Document))
    (child_docs : List Document) : List Document :=
  (dedupFirstOcc (child_docs.filterMap
      (fun c => assocFind c.metadata "parent_id"))).filterMap
    (fun pid => assocFind store pid)

theorem mem_dedupSeen (x : String) :
    ∀ (l seen : List String), x ∈ dedupSeen l seen → x ∈ l ∧ x ∉ seen := by
  intro l
  induction l with
  | nil => intro seen h; simp [dedupSeen] at h
  | cons a as ih =>
      intro seen h
      by_cases ha : a ∈ seen
      · simp [dedupSeen, ha] at h
        rcases ih seen h with ⟨h1, h2⟩
        exact ⟨List.mem_cons_of_mem _ h1, h2⟩
      · simp [dedupSeen, ha] at h
        rcases h with h | h
        · subst h; exact ⟨List.mem_cons_self _ _, ha⟩
        · rcases ih (a :: seen) h with ⟨h1, h2⟩
          refine ⟨List.mem_cons_of_mem _ h1, fun hc => h2 ?_⟩
          exact List.mem_cons_of_mem _ hc

theorem dedupSeen_nodup : ∀ (l seen : List String), (dedupSeen l seen).Nodup := by
  intro l
  induction l with
  | nil => intro seen; simp [dedupSeen]
  | cons a as ih =>
      intro seen
      by_cases ha : a ∈ seen
      · simpa [dedupSeen, ha] using ih seen
      · simp only [dedupSeen, ha, if_neg]
        simp only [ite_false, List.nodup_cons]
        refine ⟨fun hc => ?_, ih (a :: seen)⟩
        exact (mem_dedupSeen a as (a :: seen) hc).2 (List.mem_cons_self _ _)

/-- The generalised correspondence between the source loop (seen-set `S`,
ids marked seen only when resolved) and the spec-level de-duplication
(seen-set `T`, ids always marked): they agree as long as `T` only adds ids
that the store cannot resolve. -/
theorem get_parents_go_eq (store : List (String × Document)) :
    ∀ (cs : List Document) (S T : List String),
      (∀ p, p ∈ S → p ∈ T) →
      (∀ p, p ∈ T → p ∈ S ∨ assocFind store p = none) →
      (∀ c ∈ cs, assocFind c.metadata "parent_id" ≠ some "") →
      get_parents_go store cs S =
        (dedupSeen (cs.filterMap (fun c => assocFind c.metadata "parent_id")) T).filterMap
          (fun pid => assocFind store pid) := by
  intro cs
  induction cs with
  | nil => intro S T _ _ _; simp [get_parents_go, dedupSeen]
  | cons c cs ih =>
      intro S T hST hTS hne
      have hne' : ∀ d ∈ cs, assocFind d.metadata "parent_id" ≠ some "" :=
        fun d hd => hne d (List.mem_cons_of_mem _ hd)
      cases hm : assocFind c.metadata "parent_id" with
      | none =>
          simp only [get_parents_go, hm, List.filterMap_cons]
          exact ih S T hST hTS hne'
      | some pid =>
          have hpid : pid ≠ "" := by
            intro h; subst h; exact hne c (List.mem_cons_self _ _) hm
          simp only [get_parents_go, hm, List.filterMap_cons]
          by_cases hS : pid ∈ S
          · have hT : pid ∈ T := hST pid hS
            simp only [hpid, hS, not_true, and_false, if_false, ne_eq,
              not_false_iff, true_and, dedupSeen, hT, if_pos]
            exact ih S T hST hTS hne'
          · by_cases hT : pid ∈ T
            · have hnone : assocFind store pid = none := by
                rcases hTS pid hT with h | h
                · exact absurd h hS
                · exact h
              simp only [ne_eq, hpid, not_false_iff, hS, and_true, true_and,
                if_pos, hnone, dedupSeen, hT, if_pos]
              exact ih S T hST hTS hne'
            · have hcond : pid ≠ "" ∧ pid ∉ S := ⟨hpid, hS⟩
              simp only [ne_eq, hcond, and_self, if_pos, dedupSeen, hT,
                if_neg, not_false_iff, List.filterMap_cons, hpid, hS]
              cases hfind : assocFind store pid with
              | some parent =>
                  simp only [hfind]
                  have h1 : ∀ p, p ∈ (pid :: S) → p ∈ (pid :: T) := by
                    intro p hp
                    rcases List.mem_cons.mp hp with h | h
                    · exact h ▸ List.mem_cons_self _ _
                    · exact List.mem_cons_of_mem _ (hST p h)
                  have h2 : ∀ p, p ∈ (pid :: T) →
                      p ∈ (pid :: S) ∨ assocFind store p = none := by
                    intro p hp
                    rcases List.mem_cons.mp hp with h | h
                    · exact Or.inl (h ▸ List.mem_cons_self _ _)
                    · rcases hTS p h with h' | h'
                      · exact Or.inl (List.mem_cons_of_mem _ h')
                      · exact Or.inr h'
                  rw [ih (pid :: S) (pid :: T) h1 h2 hne']
              | none =>
                  simp only [hfind]
                  have h1 : ∀ p, p ∈ S → p ∈ (pid :: T) :=
                    fun p hp => List.mem_cons_of_mem _ (hST p hp)
                  have h2 : ∀ p, p ∈ (pid :: T) →
                      p ∈ S ∨ assocFind store p = none := by
                    intro p hp
                    rcases List.mem_cons.mp hp with h | h
                    · exact Or.inr (h ▸ hfind)
                    · exact hTS p h
                  exact ih S (pid :: T) h1 h2 hne'

/-! ## SHA-256 (hashlib.sha256 used by the cache key derivation)

A direct FIPS 180-4 implementation over byte lists, with 32-bit words as
naturals reduced modulo 2^32.  Only determinism of the digest is used by
the proofs; the implementation is included so that the cache key derivation
is the source's `sha256(normalised.encode()).hexdigest()[:16]` and not an
abstract placeholder. -/

def utf8EncodeCharNat (c : Char) : List Nat :=
  let n := c.toNat
  if n < 128 then [n]
  else if n < 2048 then [192 + n / 64, 128 + n % 64]
  else if n < 65536 then [224 + n / 4096, 128 + n / 64 % 64, 128 + n % 64]
  else [240 + n / 262144, 128 + n / 4096 % 64, 128 + n / 64 % 64, 128 + n % 64]

/-- Python `str.encode()` (UTF-8 bytes). -/
def utf8Bytes (s : String) : List Nat := s.data.flatMap utf8EncodeCharNat

def m32 (n : Nat) : Nat := n % 4294967296

def rotr32 (r x : Nat) : Nat := m32 (x / 2 ^ r + x % 2 ^ r * 2 ^ (32 - r))

def not32 (x : Nat) : Nat := 4294967295 - x

def shaCh (x y z : Nat) : Nat := (x &&& y) ^^^ (not32 x &&& z)

def shaMaj (x y z : Nat) : Nat := (x &&& y) ^^^ (x &&& z) ^^^ (y &&& z)

def bigSigma0 (x : Nat) : Nat := rotr32 2 x ^^^ rotr32 13 x ^^^ rotr32 22 x

def bigSigma1 (x : Nat) : Nat := rotr32 6 x ^^^ rotr32 11 x ^^^ rotr32 25 x

def smallSigma0 (x : Nat) : Nat := rotr32 7 x ^^^ rotr32 18 x ^^^ x / 8

def smallSigma1 (x : Nat) : Nat := rotr32 17 x ^^^ rotr32 19 x ^^^ x / 1024

/-- The 64 SHA-256 round constants of FIPS 180-4 §4.2.2, written in
decimal. -/
def shaK : List Nat :=
  [1116352408, 1899447441, 3049323471, 3921009573, 961987163,
   1508970993, 2453635748, 2870763221, 3624381080, 310598401,
   607225278, 1426881987, 1925078388, 2162078206, 2614888103,
   3248222580, 3835390401, 4022224774, 264347078, 604807628,
   770255983, 1249150122, 1555081692, 1996064986, 2554220882,
   2821834349, 2952996808, 3210313671, 3336571891, 3584528711,
   113926993, 338241895, 666307205, 773529912, 1294757372,
   1396182291, 1695183700, 1986661051, 2177026350, 2456956037,
   2730485921, 2820302411, 3259730800, 3345764771, 3516065817,
   3600352804, 4094571909, 275423344, 430227734, 506948616,
   659060556, 883997877, 958139571, 1322822218, 1537002063,
   1747873779, 1955562222, 2024104815, 2227730452, 2361852424,
   2428436474, 2756734187, 3204031479, 3329325298]

/-- The initial SHA-256 hash state of FIPS 180-4 §5.3.3, in decimal. -/
def shaH0 : List Nat :=
  [1779033703, 3144134277, 1013904242, 2773480762,
   1359893119, 2600822924, 528734635, 1541459225]

/-- Group bytes into big-endian 32-bit words. -/
def bytesToWords : List Nat → List Nat
  | b0 :: b1 :: b2 :: b3 :: rest =>
      (b0 * 16777216 + b1 * 65536 + b2 * 256 + b3) :: bytesToWords rest
  | _ => []

def shaNextWord (w : List Nat) : Nat :=
  let t := w.length
  m32 (smallSigma1 (w.getD (t - 2) 0) + w.getD (t - 7) 0 +
       smallSigma0 (w.getD (t - 15) 0) + w.getD (t - 16) 0)

def shaExtend : List Nat → Nat → List Nat
  | w, 0 => w
  | w, fuel + 1 => shaExtend (w ++ [shaNextWord w]) fuel

abbrev Sha8 := Nat × Nat × Nat × Nat × Nat × Nat × Nat × Nat

def shaRound (s : Sha8) (kw : Nat × Nat) : Sha8 :=
  let (a, b, c, d, e, f, g, h) := s
  let t1 := m32 (h + bigSigma1 e + shaCh e f g + kw.1 + kw.2)
  let t2 := m32 (bigSigma0 a + shaMaj a b c)
  (m32 (t1 + t2), a, b, c, m32 (d + t1), e, f, g)

def shaCompress (hs : List Nat) (block : List Nat) : List Nat :=
  let w := shaExtend (bytesToWords block) 48
  let s0 : Sha8 := (hs.getD 0 0, hs.getD 1 0, hs.getD 2 0, hs.getD 3 0,
                    hs.getD 4 0, hs.getD 5 0, hs.getD 6 0, hs.getD 7 0)
  let (a, b, c, d, e, f, g, h) := (shaK.zip w).foldl shaRound s0
  [m32 (hs.getD 0 0 + a), m32 (hs.getD 1 0 + b), m32 (hs.getD 2 0 + c),
   m32 (hs.getD 3 0 + d), m32 (hs.getD 4 0 + e), m32 (hs.getD 5 0 + f),
   m32 (hs.getD 6 0 + g), m32 (hs.getD 7 0 + h)]

def blocks64Go : Nat → List Nat → List (List Nat)
  | 0, _ => []
  | _, [] => []
  | fuel + 1, l => l.take 64 :: blocks64Go fuel (l.drop 64)

def blocks64 (l : List Nat) : List (List Nat) := blocks64Go l.length l

def hexChar (n : Nat) : Char :=
  if n < 10 then Char.ofNat (48 + n) else Char.ofNat (87 + n)

def word32hexChars (w : Nat) : List Char :=
  [28, 24, 20, 16, 12, 8, 4, 0].map (fun s => hexChar (w / 2 ^ s % 16))

/-- `hashlib.sha256(bytes).hexdigest()`. -/
def sha256hex (s : String) : String :=
  let msg := utf8Bytes s
  let len := msg.length
  let z := (119 - len % 64) % 64
  let bitLen := 8 * len
  let lenBytes := [bitLen / 2 ^ 56 % 256, bitLen / 2 ^ 48 % 256,
                   bitLen / 2 ^ 40 % 256, bitLen / 2 ^ 32 % 256,
                   bitLen / 2 ^ 24 % 256, bitLen / 2 ^ 16 % 256,
                   bitLen / 2 ^ 8 % 256, bitLen % 256]
  let padded := msg ++ 128 :: List.replicate z 0 ++ lenBytes
  let hs := (blocks64 padded).foldl shaCompress shaH0
  String.mk (hs.flatMap word32hexChars)

/-! ## Answer cache (src/services/cache_service.py)

JSON payload values.  The Redis transport stores
`json.dumps(result, default=str)` and `get` returns `json.loads` of the
stored string (`decode_responses=True`); for JSON-representable payloads the
dump/load round trip is the identity, so the model stores the payload value
itself at the boundary. -/

inductive JsonValue where
  | jnull
  | jbool (b : Bool)
  | jnum (n : Int)
  | jstr (s : String)
  | jarr (items : List JsonValue)
  | jobj (fields : List (String × JsonValue))

structure CacheEntry where
  key : String
  value : JsonValue
  expiresAt : Nat

/-- The cache service: `enabled` is set at startup from the Redis ping;
`store` models the Redis keyspace (key, payload, absolute expiry time);
`ttlSeconds` is `timedelta(seconds=settings.cache_ttl_seconds)`. -/
structure CacheService where
  enabled : Bool
  store : List CacheEntry
  ttlSeconds : Nat

/-- `CacheService._make_key`: lower-case, strip, sha256, first 16 hex chars,
under the "rag_cache:" namespace. -/
def make_key (question : String) : String :=
  "rag_cache:" ++ (sha256hex (question.toLower.trim)).take 16

/-- Redis GET with server-side TTL enforcement: a key answers only while the
current time is before its expiry. -/
def redisGet (store : List CacheEntry) (key : String) (now : Nat) : Option JsonValue :=
  match store.find? (fun e => e.key == key) with
  | some e => if now < e.expiresAt then some e.value else none
  | none => none

/-- Redis SETEX: replace any previous entry for the key, with expiry
`now + ttl`. -/
def redisSetex (store : List CacheEntry) (key : String) (v : JsonValue)
    (expiresAt : Nat) : List CacheEntry :=
  { key := key, value := v, expiresAt := expiresAt } ::
    store.filter (fun e => e.key != key)

def CacheService.get (c : CacheService) (question : String) (now : Nat) :
    Option JsonValue :=
  if c.enabled then redisGet c.store (make_key question) now else none

def CacheService.set (c : CacheService) (question : String) (result : JsonValue)
    (now : Nat) : CacheService :=
  if c.enabled then
    { c with store := redisSetex c.store (make_key question) result (now + c.ttlSeconds) }
  else c

/-- `CacheService.clear`: delete every key matching the glob
`rag_cache:*` (a literal-text pattern, so a pure key-namespace test). -/
def CacheService.clear (c : CacheService) : CacheService :=
  if c.enabled then
    { c with store := c.store.filter (fun e => !(listPfx "rag_cache:".data e.key.data)) }
  else c

/-! ## LlamaIndex multi-index engine (src/services/llamaindex_multi_engine.py)

A per-category `VectorStoreIndex` is modelled by the list of its nodes; a
per-category query engine by the node list it wraps.  The router and
sub-question engines are modelled by the tool list they were rebuilt from.
The LLM-backed behaviour of `engine.query` is an oracle. -/

structure TextNode where
  text : String
  metadata : List (String × String)
deriving DecidableEq

structure LlamaDoc where
  content : String
  metadata : List (String × String)
deriving DecidableEq

structure MultiIndexEngine where
  indexes : List (String × Option (List TextNode))
  query_engines : List (String × List TextNode)
  router_engine : Option (List (String × List TextNode))
  sub_question_engine : Option (List (String × List TextNode))
deriving DecidableEq

/-- `MultiIndexEngine.__init__`: three empty index slots, no engines. -/
def MultiIndexEngine.init : MultiIndexEngine :=
  { indexes := [("audit", none), ("policy", none), ("financial", none)]
    query_engines := []
    router_engine := none
    sub_question_engine := none }

/-- `_rebuild_engines`: the router and sub-question engines are rebuilt from
the current query-engine tools only when at least two tools exist; otherwise
they are left as they were. -/
def MultiIndexEngine.rebuild_engines (e : MultiIndexEngine) : MultiIndexEngine :=
  let tools := e.query_engines
  if tools.length ≥ 2 then
    { e with router_engine := some tools, sub_question_engine := some tools }
  else e

/-- `MultiIndexEngine.add_documents`: rejects an unknown index name
(`ValueError`), otherwise builds `VectorStoreIndex(nodes)` from the new
documents alone, stores it in the slot, rebuilds the per-category query
engine over it, and rebuilds the derived engines. -/
def MultiIndexEngine.add_documents (e : MultiIndexEngine)
    (documents : List LlamaDoc) (index_name : String) :
    Except String MultiIndexEngine :=
  if (assocFind e.indexes index_name).isSome then
    let nodes := documents.map (fun d => { text := d.content, metadata := d.metadata : TextNode })
    let e1 := { e with
      indexes := assocSet e.indexes index_name (some nodes)
      query_engines := assocSet e.query_engines index_name nodes }
    .ok e1.rebuild_engines
  else .error ("Unknown index: " ++ index_name)

/-- The engine object picked by `MultiIndexEngine.query`'s cascade, handed
to the external query call. -/
inductive EngineRef where
  | router (tools : List (String × List TextNode))
  | subQuestion (tools : List (String × List TextNode))
  | single (name : String) (nodes : List TextNode)
deriving DecidableEq

structure SourceNode where
  text : String
  metadata : List (String × String)
  score : Option Int
deriving DecidableEq

/-- The response object of the external `engine.query(question)` call:
`str(response)` is `answer`, plus `source_nodes`.  Scores are reals in the
source; they are modelled as integers (only truthiness and pass-through are
relevant to any claim). -/
structure EngineResponse where
  answer : String
  source_nodes : List SourceNode
deriving DecidableEq

structure SourceInfo where
  content : String
  source : String
  file_type : String
  relevance_score : Option Int
deriving DecidableEq

structure QueryResult where
  answer : String
  sources : List SourceInfo
deriving DecidableEq

/-- Formatting of one source node in `MultiIndexEngine.query`: truncate at
300 characters, default metadata, and `round(score, 4) if score else None`
(so a falsy score becomes `None`; rounding itself is the identity in the
integer model). -/
def formatSourceNode (n : SourceNode) : SourceInfo :=
  { content := if n.text.length > 300 then n.text.take 300 ++ "..." else n.text
    source := (assocFind n.metadata "filename").getD "Unknown"
    file_type := (assocFind n.metadata "file_type").getD "unknown"
    relevance_score :=
      match n.score with
      | some s => if s = 0 then none else some s
      | none => none }

def formatQueryResponse (resp : EngineResponse) : QueryResult :=
  { answer := resp.answer, sources := resp.source_nodes.map formatSourceNode }

/-- `MultiIndexEngine.query`: the engine-selection cascade, the
"No documents indexed yet." sentinel when nothing is selectable, and the
source formatting.  `oracle` is the external LLM-backed query execution. -/
def MultiIndexEngine.query (e : MultiIndexEngine) (question : String)
    (engine_type : String) (oracle : EngineRef → String → EngineResponse) :
    QueryResult :=
  let engine : Option EngineRef :=
    if engine_type = "sub_question" ∧ e.sub_question_engine.isSome then
      e.sub_question_engine.map .subQuestion
    else if e.router_engine.isSome then
      e.router_engine.map .router
    else
      match e.query_engines with
      | [] => none
      | (n, nodes) :: _ => some (.single n nodes)
  match engine with
  | none => { answer := "No documents indexed yet.", sources := [] }
  | some eng => formatQueryResponse (oracle eng question)

/-! ## Advanced retrieval pipeline (src/services/advanced_retrieval.py)

External calls are oracles returning `Except`: a `.error` is a raised
exception at that call site.  The retried call takes an attempt index,
since a transient failure may clear up between attempts.  `base` is
likewise indexed by its call count: when `use_multi_query` is set the
direct fallback is the base retriever's first call, otherwise its fourth
(after the three retried attempts). -/

structure RetrievalEnv where
  multi_query : String → Nat → Except String (List Document)
  base : String → Nat → Except String (List Document)
  rerank : String → Except String (List Document)

/-- Configuration of `AdvancedRetrievalService.__init__`: whether the
Cohere re-ranker was constructed, and the optional parent-child store. -/
structure AdvancedRetrievalService where
  reranker_some : Bool
  parent_child : Option (List (String × Document))

/-- The tenacity policy `stop_after_attempt(3)`: three attempts, the last
error propagates. -/
def retry3 (f : Nat → Except String (List Document)) : Except String (List Document) :=
  match f 0 with
  | .ok ds => .ok ds
  | .error _ =>
      match f 1 with
      | .ok ds => .ok ds
      | .error _ => f 2

/-- `_retrieve_with_retry`. -/
def retrieve_with_retry (env : RetrievalEnv) (question : String)
    (use_multi_query : Bool) : Except String (List Document) :=
  retry3 (fun i =>
    if use_multi_query then env.multi_query question i else env.base question i)

/-- Step 2 of `retrieve`: re-rank with fallback to the pre-re-rank order
truncated to `rerank_top_n` when the re-ranker raises; skipped when
re-ranking is off, the re-ranker is absent, or there are no candidates. -/
def rerankStep (svc : AdvancedRetrievalService) (env : RetrievalEnv)
    (question : String) (use_reranking : Bool) (docs : List Document) :
    List Document :=
  if use_reranking ∧ svc.reranker_some = true ∧ docs.length > 0 then
    match env.rerank question with
    | .ok ds => ds
    | .error _ => docs.take settings.rerank_top_n
  else docs

/-- Step 3 of `retrieve`: swap candidates for their parents when the
expansion finds any, otherwise keep the candidates.  The resolution is a
pure in-process walk of the store, so the surrounding try/except has no
failing path in the model. -/
def parentStep (svc : AdvancedRetrievalService) (use_parent_child : Bool)
    (docs : List Document) : List Document :=
  match svc.parent_child, use_parent_child with
  | some store, true =>
      let parent_docs := get_parents_for_children store docs
      if parent_docs = [] then docs else parent_docs
  | _, _ => docs

/-- `AdvancedRetrievalService.retrieve`.  Step 1 catches a failure of the
retried retrieval and falls back to one direct base search; if that raises
too, the function returns `[]` at once (the `return []` in the handler).
A `.error` result would mean an exception escaping `retrieve`. -/
def retrieve (svc : AdvancedRetrievalService) (env : RetrievalEnv)
    (question : String) (use_reranking use_multi_query use_parent_child : Bool) :
    Except String (List Document) :=
  let step1 : Option (List Document) :=
    match retrieve_with_retry env question use_multi_query with
    | .ok ds => some ds
    | .error _ =>
        match env.base question (if use_multi_query then 0 else 3) with
        | .ok ds => some ds
        | .error _ => none
  match step1 with
  | none => .ok []
  | some docs =>
      .ok (parentStep svc use_parent_child
            (rerankStep svc env question use_reranking docs))

/-! ## Application state and document lifecycle (src/main.py)

The slice of the FastAPI process state that the lifecycle claims touch:
the cache service, the job map, the document registry, the multi-index
engine, the parent-child store and the main Qdrant collection. -/

inductive JobStatus where
  | pending
  | processing
  | completed
  | failed
deriving DecidableEq

structure DocRecord where
  filename : String
  file_type : String
  category : String
  access_group : String
  chunk_count : Nat
  status : JobStatus
  uploaded_at : String
deriving DecidableEq

structure AppState where
  cache : CacheService
  processing_jobs : List (String × JobStatus)
  document_registry : List (String × DocRecord)
  multi_engine : MultiIndexEngine
  parent_store : List (String × Document)
  vector_chunks : List Document

/-- `os.path.splitext(filename)[1].lstrip(".")`: the text after the last
dot, empty when there is no dot.  (Python's special casing of a leading
dot, as in hidden files, is not modelled; upload names always carry a
checked extension.) -/
def fileExt (filename : String) : String :=
  let parts := filename.splitOn "."
  if parts.length ≤ 1 then "" else parts.getLastD ""

/-- `_process_document_background`: mark the job processing, ingest the
file's chunks into the main vector store, wrap the loaded documents with
filename/category/access-group metadata (dict-merge overrides modelled by
front insertion under first-match lookup), route them into the matching
LlamaIndex index when the category is one of the three known ones, then
register the document and complete the job.  Any exception inside the body
marks the job failed.  `loadedDocs` is the external `load_document` output,
`ingestChunks` the loader-plus-splitter output stored by `ingest_file`, and
`uploadedAt` the formatted wall-clock time. -/
def process_document_background (s : AppState) (job_id : String)
    (filename : String) (category : String) (access_group : String)
    (uploadedAt : String) (loadedDocs : List Document)
    (ingestChunks : List Document) : AppState :=
  let s1 := { s with processing_jobs := assocSet s.processing_jobs job_id .processing }
  let s2 := { s1 with vector_chunks := s1.vector_chunks ++ ingestChunks }
  let llamaDocs : List LlamaDoc := loadedDocs.map (fun d =>
    { content := d.pageContent
      metadata := [("filename", filename), ("category", category),
                   ("access_group", access_group)] ++ d.metadata })
  let routed : Except String MultiIndexEngine :=
    if category = "audit" ∨ category = "policy" ∨ category = "financial" then
      s2.multi_engine.add_documents llamaDocs category
    else .ok s2.multi_engine
  match routed with
  | .error _ =>
      { s2 with processing_jobs := assocSet s2.processing_jobs job_id .failed }
  | .ok me =>
      let record : DocRecord :=
        { filename := filename
          file_type := fileExt filename
          category := category
          access_group := access_group
          chunk_count := ingestChunks.length
          status := .completed
          uploaded_at := uploadedAt }
      { s2 with
          multi_engine := me
          document_registry := assocSet s2.document_registry job_id record
          processing_jobs := assocSet s2.processing_jobs job_id .completed }

/-- `delete_document` endpoint: admin gate, registry membership check,
registry pop and a wholesale cache clear.  Neither the parent-child store
nor the vector collections are touched. -/
def delete_document (s : AppState) (document_id : String) (user : CurrentUser) :
    Except HTTPErr (AppState × String) :=
  if "ALL" ∈ user.access_groups then
    match assocFind s.document_registry document_id with
    | none => .error { status := 404, detail := "Document not found" }
    | some info =>
        let s1 := { s with
          document_registry := assocRemove s.document_registry document_id
          cache := s.cache.clear }
        .ok (s1, "Document " ++ info.filename ++ " deleted")
  else .error { status := 403, detail := "Admin role required to delete documents" }

/-- The retrieval part of `LangChainOrchestrator.ask` (the /ask standard
engine): invoke the startup-time retriever, then swap children for parents
when the parent-child component is present and finds any. -/
def ask_context_docs (parent_child : Option (List (String × Document)))
    (retrieved : List Document) : List Document :=
  match parent_child with
  | some store =>
      let context_docs := get_parents_for_children store retrieved
      if context_docs = [] then retrieved else context_docs
  | none => retrieved

/-! ## Concrete example data used by the claim theorems and witnesses -/

def viewerU : CurrentUser :=
  { role := "viewer", name := "Viewer", access_groups := ["GLOBAL_AUDIT"] }

def adminU : CurrentUser :=
  { role := "admin", name := "Admin",
    access_groups := ["GLOBAL_AUDIT", "APAC_AUDIT", "EMEA_AUDIT", "ALL"] }

def emeaChunk : Document :=
  { pageContent := "EMEA finding",
    metadata := [("access_group", "EMEA_AUDIT"), ("filename", "emea.pdf")] }

def globalChunk (n : Nat) : Document :=
  { pageContent := "GLOBAL item " ++ toString n,
    metadata := [("access_group", "GLOBAL_AUDIT"), ("filename", "global.pdf")] }

/-- A candidate pool whose top similarity hit is an EMEA-tagged chunk,
followed by five GLOBAL-tagged chunks. -/
def rankedPool : List Document :=
  [emeaChunk, globalChunk 1, globalChunk 2, globalChunk 3, globalChunk 4,
   globalChunk 5]

def p2doc : Document :=
  { pageContent := "parent two text", metadata := [("parent_id", "p2")] }

def c7doc : Document :=
  { pageContent := "child seven", metadata := [("parent_id", "p2")] }

def c12doc : Document :=
  { pageContent := "child twelve", metadata := [("parent_id", "p2")] }

def pcStoreEx : List (String × Document) := [("p2", p2doc)]

def litEntry : CacheEntry :=
  { key := "rag_cache:0123456789abcdef", value := .jstr "cached answer",
    expiresAt := 1000000 }

def cacheEx : CacheService :=
  { enabled := true, store := [litEntry], ttlSeconds := 3600 }

def loadedDoc : Document := { pageContent := "doc body", metadata := [] }

def exState : AppState :=
  { cache := cacheEx, processing_jobs := [], document_registry := []
    multi_engine := .init, parent_store := [], vector_chunks := [] }

def docRec : DocRecord :=
  { filename := "r.pdf", file_type := "pdf", category := "audit"
    access_group := "GLOBAL_AUDIT", chunk_count := 3, status := .completed
    uploaded_at := "2026-01-01T00:00:00Z" }

def exState2 : AppState := { exState with document_registry := [("d1", docRec)] }

def parentOfD1 : Document :=
  { pageContent := "body of d1", metadata := [("parent_id", "p1"), ("filename", "r.pdf")] }

def childOfD1 : Document :=
  { pageContent := "child of d1", metadata := [("parent_id", "p1")] }

def exState3 : AppState := { exState2 with parent_store := [("p1", parentOfD1)] }

def oracleConst : EngineRef → String → EngineResponse :=
  fun _ _ => { answer := "Routed answer.", source_nodes := [] }

def llamaDocA : LlamaDoc := { content := "audit finding", metadata := [] }

def llamaDocB : LlamaDoc := { content := "second upload", metadata := [] }

def nodeA : TextNode := { text := "audit finding", metadata := [] }

def nodeB : TextNode := { text := "second upload", metadata := [] }

def envFail : RetrievalEnv :=
  { multi_query := fun _ _ => .error "down"
    base := fun _ _ => .error "down"
    rerank := fun _ => .error "down" }

def svcNone : AdvancedRetrievalService :=
  { reranker_some := false, parent_child := none }

def docOne : Document := { pageContent := "candidate", metadata := [] }

def envRerankFail : RetrievalEnv :=
  { multi_query := fun _ _ => .ok [docOne]
    base := fun _ _ => .ok [docOne]
    rerank := fun _ => .error "cohere down" }

def svcRerank : AdvancedRetrievalService :=
  { reranker_some := true, parent_child := none }

def cW : CacheService := { enabled := true, store := [], ttlSeconds := 3600 }

/-! ## Helper lemmas -/

theorem find?_filter_none {α : Type} (l : List α) (p f : α → Bool)
    (h : ∀ e, p e = true → f e = false) : (l.filter f).find? p = none := by
  induction l with
  | nil => rfl
  | cons a as ih =>
      cases hf : f a with
      | false => simpa [List.filter_cons, hf] using ih
      | true =>
          have hp : p a = false := by
            cases hpa : p a with
            | false => rfl
            | true => rw [h a hpa] at hf; exact absurd hf (by simp)
          simp only [List.filter_cons, hf, if_pos, List.find?_cons, hp]
          exact ih

theorem make_key_in_namespace (q : String) :
    listPfx "rag_cache:".data (make_key q).data = true := by
  unfold make_key
  rw [String.data_append]
  exact listPfx_self_append _ _

theorem parentStep_ne_nil (svc : AdvancedRetrievalService) (p : Bool)
    (docs : List Document) (h : docs ≠ []) : parentStep svc p docs ≠ [] := by
  unfold parentStep
  cases hpc : svc.parent_child with
  | none => exact h
  | some store =>
      cases p with
      | false => exact h
      | true =>
          by_cases hps : get_parents_for_children store docs = []
          · simpa [hps] using h
          · simp [hps]

/-! ## Claim theorems -/

/-- C1 (refuted; code bug): the access predicate is never applied on the
question-answering retrieval path.  `get_retriever` carries no filter, the
retriever returns the raw top-k for every requester, and a viewer
(permitted set without "ALL") receives an EMEA-tagged chunk that
`build_access_filter`'s own predicate would reject. -/
theorem access_filter_unused_in_ask_path :
    get_current_user [("X-User-Role", "viewer")] = .ok viewerU
    ∧ "EMEA_AUDIT" ∉ viewerU.access_groups
    ∧ "ALL" ∉ viewerU.access_groups
    ∧ get_retriever.filter = none
    ∧ (∀ ranked, retrieverInvoke get_retriever ranked = ranked.take settings.retrieval_top_k)
    ∧ emeaChunk ∈ retrieverInvoke get_retriever rankedPool
    ∧ emeaChunk ∈ ask_context_docs (some []) (retrieverInvoke get_retriever rankedPool)
    ∧ filterAccepts (build_access_filter viewerU) emeaChunk.metadata = false := by
  refine ⟨rfl, by decide, by decide, rfl, fun ranked => rfl, by decide,
    by decide, by decide⟩

/-- C2 (refuted for ingestion; code bug): `_process_document_background`
never touches the answer cache, so a cache entry written before an
ingestion step survives it; only `delete_document` clears the cache. -/
theorem ingestion_preserves_cache :
    (∀ s job_id fn cat ag up docs chunks,
        (process_document_background s job_id fn cat ag up docs chunks).cache = s.cache)
    ∧ (process_document_background exState "j1" "r.pdf" "audit" "GLOBAL_AUDIT"
        "2026-01-01T00:00:00Z" [loadedDoc] [loadedDoc]).cache.store = [litEntry]
    ∧ (∃ s' msg, delete_document exState2 "d1" adminU = .ok (s', msg)
        ∧ s'.cache.store = []) := by
  refine ⟨?_, rfl, ⟨_, _, rfl, rfl⟩⟩
  intro s job_id fn cat ag up docs chunks
  unfold process_document_background
  split
  · dsimp only
    split <;> rfl
  · rfl

/-- C3 (refuted; code bug): `delete_document` leaves the parent-chunk store
untouched — there is no `remove_document` anywhere — so after deleting a
document its parents remain in the store and `get_parents_for_children`
still returns them. -/
theorem delete_document_keeps_parent_store :
    (∀ s document_id user s' msg,
        delete_document s document_id user = .ok (s', msg) →
        s'.parent_store = s.parent_store)
    ∧ (∃ s' msg, delete_document exState3 "d1" adminU = .ok (s', msg)
        ∧ s'.parent_store = [("p1", parentOfD1)]
        ∧ get_parents_for_children s'.parent_store [childOfD1] = [parentOfD1]) := by
  constructor
  · intro s document_id user s' msg h
    unfold delete_document at h
    by_cases hall : "ALL" ∈ user.access_groups
    · rw [if_pos hall] at h
      cases hreg : assocFind s.document_registry document_id with
      | none => rw [hreg] at h; exact absurd h (by simp)
      | some info =>
          rw [hreg] at h
          simp only [Except.ok.injEq, Prod.mk.injEq] at h
          rw [← h.1]
    · rw [if_neg hall] at h; exact absurd h (by simp)
  · exact ⟨_, _, rfl, rfl, rfl⟩

theorem delete_document_keeps_parent_store_witness :
    ∃ s' msg, delete_document exState3 "d1" adminU = .ok (s', msg)
      ∧ s'.parent_store = exState3.parent_store :=
  ⟨_, _, rfl,
    delete_document_keeps_parent_store.1 exState3 "d1" adminU _ _ rfl⟩

/-- C4 counterexample: with exactly one READY category index, a router (or
sub-question) query does not return the sentinel — the cascade falls back
to the single category engine and answers from it. -/
theorem router_query_single_ready_not_sentinel :
    ∃ e1, MultiIndexEngine.init.add_documents [llamaDocA] "audit" = .ok e1
      ∧ e1.query_engines.length = 1
      ∧ e1.router_engine = none
      ∧ e1.query "q" "router" oracleConst = { answer := "Routed answer.", sources := [] }
      ∧ e1.query "q" "sub_question" oracleConst = { answer := "Routed answer.", sources := [] }
      ∧ (e1.query "q" "router" oracleConst).answer ≠ "No documents indexed yet." := by
  refine ⟨_, rfl, rfl, rfl, rfl, rfl, by decide⟩

/-- C4 amended: the sentinel answer with an empty source list is returned
exactly when no category engine exists at all (and the derived engines are
unset); with at least one category READY but the derived engines still
unset, the query falls back to the first category engine. -/
theorem query_sentinel_zero_ready (e : MultiIndexEngine) (q et : String)
    (oracle : EngineRef → String → EngineResponse)
    (h1 : e.router_engine = none) (h2 : e.sub_question_engine = none) :
    (e.query_engines = [] →
      e.query q et oracle = { answer := "No documents indexed yet.", sources := [] })
    ∧ (∀ n nodes rest, e.query_engines = (n, nodes) :: rest →
        e.query q et oracle = formatQueryResponse (oracle (.single n nodes) q)) := by
  constructor
  · intro h3
    simp [MultiIndexEngine.query, h1, h2, h3]
  · intro n nodes rest h3
    simp [MultiIndexEngine.query, h1, h2, h3]

theorem query_sentinel_zero_ready_witness :
    MultiIndexEngine.init.query "q" "router" oracleConst
      = { answer := "No documents indexed yet.", sources := [] } :=
  (query_sentinel_zero_ready MultiIndexEngine.init "q" "router" oracleConst
    rfl rfl).1 rfl

/-- C5 (refuted; code bug): `add_documents` rebuilds the per-category index
from the new documents alone, replacing the previous contents: after two
successive additions to "audit", the first call's node is gone. -/
theorem add_documents_replaces_index :
    ∃ e1 e2,
      MultiIndexEngine.init.add_documents [llamaDocA] "audit" = .ok e1
      ∧ e1.add_documents [llamaDocB] "audit" = .ok e2
      ∧ assocFind e1.indexes "audit" = some (some [nodeA])
      ∧ assocFind e2.indexes "audit" = some (some [nodeB])
      ∧ nodeA ∉ [nodeB] := by
  refine ⟨_, _, rfl, rfl, rfl, rfl, by decide⟩

/-- C6: `retrieve` never lets the candidate stage raise — it always
returns a list for every oracle behaviour, and when all three retried
attempts fail and the direct fallback search fails too, it returns the
empty list. -/
theorem retrieve_never_raises (svc : AdvancedRetrievalService) (env : RetrievalEnv)
    (q : String) (r m p : Bool) :
    (∃ ds, retrieve svc env q r m p = .ok ds)
    ∧ ((∀ i, i < 3 → ∃ e, (if m then env.multi_query q i else env.base q i) = .error e) →
       (∃ e, env.base q (if m then 0 else 3) = .error e) →
       retrieve svc env q r m p = .ok []) := by
  constructor
  · unfold retrieve
    cases h1 : retrieve_with_retry env q m with
    | ok ds => exact ⟨_, rfl⟩
    | error e =>
        cases h2 : env.base q (if m then 0 else 3) with
        | ok ds => exact ⟨_, rfl⟩
        | error e2 => exact ⟨[], rfl⟩
  · rintro hall ⟨e2, h2⟩
    have hr : ∃ e, retrieve_with_retry env q m = .error e := by
      obtain ⟨e0, h0⟩ := hall 0 (by omega)
      obtain ⟨e1, h1⟩ := hall 1 (by omega)
      obtain ⟨e2', h2'⟩ := hall 2 (by omega)
      exact ⟨e2', by simp [retrieve_with_retry, retry3, h0, h1, h2']⟩
    obtain ⟨e0, h0⟩ := hr
    simp [retrieve, h0, h2]

theorem retrieve_never_raises_witness :
    retrieve svcNone envFail "q" true true true = .ok [] :=
  (retrieve_never_raises svcNone envFail "q" true true true).2
    (fun _ _ => ⟨"down", rfl⟩) ⟨"down", rfl⟩

/-- C7: with a non-empty candidate set, re-ranking enabled and the
re-ranker raising, `retrieve` returns a non-empty `.ok` result; with
parent expansion off, the result is exactly the pre-re-rank candidates
truncated to the configured top-N. -/
theorem rerank_failure_fallback (svc : AdvancedRetrievalService)
    (env : RetrievalEnv) (q : String) (m p : Bool) (ds : List Document)
    (h1 : retrieve_with_retry env q m = .ok ds) (h2 : ds ≠ [])
    (h3 : svc.reranker_some = true) (h4 : ∃ e, env.rerank q = .error e) :
    ∃ final, retrieve svc env q true m p = .ok final
      ∧ final ≠ []
      ∧ (p = false → final = ds.take settings.rerank_top_n) := by
  obtain ⟨e, he⟩ := h4
  have hlen : ds.length > 0 := List.length_pos.mpr h2
  have hstep2 : rerankStep svc env q true ds = ds.take settings.rerank_top_n := by
    simp [rerankStep, h3, hlen, he]
  have htake : ds.take settings.rerank_top_n ≠ [] := by
    rw [Ne, List.take_eq_nil_iff]
    push_neg
    exact ⟨by decide, h2⟩
  refine ⟨parentStep svc p (ds.take settings.rerank_top_n), ?_, ?_, ?_⟩
  · simp [retrieve, h1, hstep2]
  · exact parentStep_ne_nil svc p _ htake
  · intro hp
    subst hp
    unfold parentStep
    cases svc.parent_child <;> rfl

theorem rerank_failure_fallback_witness :
    (retrieve_with_retry envRerankFail "q" true = .ok [docOne]
     ∧ ([docOne] : List Document) ≠ []
     ∧ svcRerank.reranker_some = true
     ∧ (∃ e, envRerankFail.rerank "q" = .error e))
    ∧ ∃ final, retrieve svcRerank envRerankFail "q" true true false = .ok final
        ∧ final ≠ []
        ∧ (false = false → final = [docOne].take settings.rerank_top_n) :=
  ⟨⟨rfl, by decide, rfl, ⟨"cohere down", rfl⟩⟩,
   rerank_failure_fallback svcRerank envRerankFail "q" true false [docOne]
     rfl (by decide) rfl ⟨"cohere down", rfl⟩⟩

/-- C8: parent resolution equals the spec-level description — resolve the
first-occurrence de-duplicated sequence of the children's parent ids
against the store, silently skipping children without a parent id and ids
missing from the store — and the de-duplicated id sequence has no
repeats. -/
theorem resolve_parents_first_occurrence (store : List (String × Document))
    (children : List Document)
    (h : ∀ c ∈ children, assocFind c.metadata "parent_id" ≠ some "") :
    get_parents_for_children store children = resolve_parents_spec store children
    ∧ (dedupFirstOcc (children.filterMap
        (fun c => assocFind c.metadata "parent_id"))).Nodup := by
  constructor
  · unfold get_parents_for_children resolve_parents_spec dedupFirstOcc
    exact get_parents_go_eq store children [] [] (by simp) (by simp) h
  · exact dedupSeen_nodup _ _

theorem resolve_parents_first_occurrence_witness :
    (∀ c ∈ [c7doc, c12doc], assocFind c.metadata "parent_id" ≠ some "")
    ∧ (get_parents_for_children pcStoreEx [c7doc, c12doc]
        = resolve_parents_spec pcStoreEx [c7doc, c12doc]
       ∧ (dedupFirstOcc ([c7doc, c12doc].filterMap
            (fun c => assocFind c.metadata "parent_id"))).Nodup)
    ∧ get_parents_for_children pcStoreEx [c7doc, c12doc] = [p2doc] :=
  ⟨by decide,
   resolve_parents_first_occurrence pcStoreEx [c7doc, c12doc] (by decide),
   by decide⟩

/-- C9: on an enabled cache, `set` then `get` within the TTL returns the
stored payload unchanged; after `clear`, every question's `get` is absent
(every derived key lives in the cleared "rag_cache:" namespace); and the
key is the lower-cased, stripped question hashed with SHA-256 and
truncated to a 16-hex-character prefix. -/
theorem cache_round_trip (c : CacheService) (q : String) (v : JsonValue)
    (now t : Nat) (h1 : c.enabled = true) (h2 : t < now + c.ttlSeconds) :
    (c.set q v now).get q t = some v
    ∧ (∀ q2 t2, c.clear.get q2 t2 = none)
    ∧ make_key q = "rag_cache:" ++ (sha256hex (q.toLower.trim)).take 16 := by
  refine ⟨?_, ?_, rfl⟩
  · simp [CacheService.get, CacheService.set, h1, redisGet, redisSetex,
      List.find?_cons, h2]
  · intro q2 t2
    simp only [CacheService.get, CacheService.clear, h1, if_pos, redisGet]
    rw [find?_filter_none]
    intro e hpe
    have hk : e.key = make_key q2 := eq_of_beq hpe
    rw [hk, make_key_in_namespace]
    rfl

theorem cache_round_trip_witness :
    (cW.enabled = true ∧ (10 : Nat) < 0 + cW.ttlSeconds)
    ∧ ((cW.set "What is the deadline?" (.jstr "June 1") 0).get
          "What is the deadline?" 10 = some (.jstr "June 1")
       ∧ (∀ q2 t2, cW.clear.get q2 t2 = none)
       ∧ make_key "What is the deadline?"
          = "rag_cache:" ++ (sha256hex ("What is the deadline?".toLower.trim)).take 16) :=
  ⟨⟨rfl, by decide⟩,
   cache_round_trip cW "What is the deadline?" (.jstr "June 1") 0 10 rfl (by decide)⟩

theorem gcu_header_none (hs : List (String × String))
    (hh : assocFind hs "X-User-Role" = none) :
    get_current_user hs = .ok adminU := by
  simp [get_current_user, hh, USER_ROLES, assocFind, adminU]

theorem gcu_header_unknown (hs : List (String × String)) (r : String)
    (hh : assocFind hs "X-User-Role" = some r)
    (hr : assocFind USER_ROLES r = none) :
    get_current_user hs = .error { status := 403, detail := "Unknown role: " ++ r } := by
  simp [get_current_user, hh, hr]

theorem gcu_header_known (hs : List (String × String)) (r : String) (u : RoleInfo)
    (hh : assocFind hs "X-User-Role" = some r)
    (hr : assocFind USER_ROLES r = some u) :
    get_current_user hs
      = .ok { role := r, name := u.name, access_groups := u.access_groups } := by
  simp [get_current_user, hh, hr]

/-- C10: identity resolution errors exactly when the X-User-Role header is
present with an unknown value, every such error carries status 403, and an
absent header resolves to the admin role whose permitted set contains the
"ALL" sentinel. -/
theorem role_resolution_403_iff (hs : List (String × String)) :
    ((∃ err, get_current_user hs = .error err) ↔
      (∃ r, assocFind hs "X-User-Role" = some r ∧ assocFind USER_ROLES r = none))
    ∧ (∀ err, get_current_user hs = .error err → err.status = 403)
    ∧ (assocFind hs "X-User-Role" = none →
        ∃ u, get_current_user hs = .ok u ∧ u.role = "admin"
          ∧ "ALL" ∈ u.access_groups) := by
  cases hh : assocFind hs "X-User-Role" with
  | none =>
      have hg := gcu_header_none hs hh
      refine ⟨?_, ?_, ?_⟩
      · constructor
        · rintro ⟨err, herr⟩
          rw [hg] at herr
          exact absurd herr (by simp)
        · rintro ⟨r, hr, _⟩
          exact absurd hr (by simp)
      · intro err herr
        rw [hg] at herr
        exact absurd herr (by simp)
      · intro _
        exact ⟨adminU, hg, rfl, by decide⟩
  | some r =>
      cases hr : assocFind USER_ROLES r with
      | none =>
          have hg := gcu_header_unknown hs r hh hr
          refine ⟨?_, ?_, ?_⟩
          · constructor
            · intro _
              exact ⟨r, rfl, hr⟩
            · intro _
              exact ⟨_, hg⟩
          · intro err herr
            rw [hg] at herr
            injection herr with h
            rw [← h]
          · intro habs
            exact absurd habs (by simp)
      | some u =>
          have hg := gcu_header_known hs r u hh hr
          refine ⟨?_, ?_, ?_⟩
          · constructor
            · rintro ⟨err, herr⟩
              rw [hg] at herr
              exact absurd herr (by simp)
            · rintro ⟨r2, hr2, hnone⟩
              simp only [Option.some.injEq] at hr2
              subst hr2
              rw [hr] at hnone
              exact absurd hnone (by simp)
          · intro err herr
            rw [hg] at herr
            exact absurd herr (by simp)
          · intro habs
            exact absurd habs (by simp)

theorem role_resolution_403_iff_witness :
    (assocFind ([] : List (String × String)) "X-User-Role" = none)
    ∧ (∃ u, get_current_user [] = .ok u ∧ u.role = "admin"
        ∧ "ALL" ∈ u.access_groups)
    ∧ (∃ err, get_current_user [("X-User-Role", "intruder")] = .error err) :=
  ⟨rfl, (role_resolution_403_iff []).2.2 rfl,
   (role_resolution_403_iff [("X-User-Role", "intruder")]).1.mpr
     ⟨"intruder", rfl, rfl⟩⟩

end AuditPlatform
